import Mathlib

/-!
Shallow embedding of the SmartLearn quiz application (src/app.py) for
verification of its specification.

Python strings are modelled as `List Char` (`PyStr`), SQLite rows as
structures, and the stateful Streamlit handlers as pure functions over
explicit state:

* `take_test_ui`'s "Submit Test" branch (app.py:179-211) becomes
  `submitTest`, a function from the student id, the `questions` table and
  the session's answers dict to a `SubmitOutcome`;
* `take_test_ui`'s question-loading branch (app.py:130-144), which runs
  `SELECT ... ORDER BY RANDOM() LIMIT n`, is modelled as taking the first
  `n` elements of an arbitrary permutation of the filtered table;
* `leaderboard_ui` (app.py:214-230) becomes `leaderboard_ui`, a pure
  function from the `student_scores` table to ranked rows;
* `student_dashboard_ui` (app.py:105-123) becomes `student_dashboard_ui`.

Machine-level caveats recorded as modelling choices: Python `round` /
SQLite `ROUND` on floats are both modelled as exact rational rounding to
two decimals with ties to even (`pyRound2`); Python's float comparison
`correct >= total / 2` is modelled as the exact rational comparison, which
agrees with it on all integer inputs arising here.
-/

namespace SLearn

/-- A Python string, modelled as its list of characters. -/
abbrev PyStr := List Char

/-- The whitespace characters removed by Python's `str.strip()` (ASCII). -/
def pyIsSpace (c : Char) : Bool :=
  c = ' ' || c = '\t' || c = '\n' || c = '\x0d' || c = '\x0b' || c = '\x0c'

/-- Python `str.strip()`: drop leading and trailing whitespace. -/
def pyStrip (s : PyStr) : PyStr :=
  ((s.dropWhile pyIsSpace).reverse.dropWhile pyIsSpace).reverse

/-- Python `str.upper()` on the ASCII data used here. -/
def pyUpper (s : PyStr) : PyStr := s.map Char.toUpper

/-- Rounding half to even of a rational to an integer (Python `round(x)`),
    modelled exactly over `ℚ`. -/
def rhe (q : ℚ) : ℤ :=
  let f := Int.floor q
  let r := q - f
  if r < 1/2 then f
  else if 1/2 < r then f + 1
  else if f % 2 = 0 then f else f + 1

/-- Python `round(x, 2)` / SQLite `ROUND(x, 2)`, modelled exactly over `ℚ`. -/
def pyRound2 (q : ℚ) : ℚ := (rhe (100 * q) : ℚ) / 100

/-- One row of the `questions` table.  Only the columns the claims depend
    on are modelled; `question`, `option_a..d`, `chapter`, `topic`,
    `difficulty` and `type` are rendering-only in the source.  `answer` is
    `none` when the column is SQL NULL. -/
structure Question where
  id : ℕ
  answer : Option PyStr
  subject : PyStr
deriving DecidableEq

/-- One row of the `student_scores` table (app.py:37-45).  The
    `timestamp` column defaults in SQL and is never read by the claims, so
    it is omitted. -/
structure Attempt where
  student : PyStr
  qid : ℕ
  is_correct : ℕ
deriving DecidableEq

/-- `SELECT answer FROM questions WHERE id=?` followed by `fetchone()`
    (app.py:188-189): `none` when no row matches, `some a` for the first
    matching row's `answer` column. -/
def getAnswerRow (qs : List Question) (qid : ℕ) : Option (Option PyStr) :=
  (qs.find? (fun q => q.id = qid)).map (·.answer)

/-- `correct_ans = row[0].strip().upper()[0] if row and row[0] else ""`
    (app.py:190).  The result is `none` exactly when the Python line
    raises `IndexError`, i.e. when the stored answer is non-empty but all
    whitespace. -/
def correctAnsOf (row : Option (Option PyStr)) : Option PyStr :=
  match row with
  | some (some s) =>
    if s = [] then some []
    else
      match pyUpper (pyStrip s) with
      | [] => none
      | c :: _ => some [c]
  | _ => some []

/-- Scoring of one answered question (app.py:188-191):
    `is_correct = 1 if user_choice == correct_ans else 0`.
    `none` when the source would raise. -/
def scoreOne (qs : List Question) (qid : ℕ) (choice : PyStr) : Option ℕ :=
  (correctAnsOf (getAnswerRow qs qid)).map (fun ca => if choice = ca then 1 else 0)

/-- The scoring loop over `answers.items()` (app.py:187-197), producing
    the per-question correctness flags in order; `none` when an iteration
    raises, in which case `conn.commit()` (app.py:198) is never reached
    and nothing is persisted. -/
def scoreAnswers (qs : List Question) : List (ℕ × PyStr) → Option (List (ℕ × ℕ))
  | [] => some []
  | (q, a) :: rest =>
    match scoreOne qs q a, scoreAnswers qs rest with
    | some f, some fs => some ((q, f) :: fs)
    | _, _ => none

/-- The qualitative feedback bucket printed after a successful submission. -/
inductive Tier where
  | perfect
  | nearPerfect
  | good
  | encourage
deriving DecidableEq

/-- The tier branch of `take_test_ui` (app.py:204-211):
    `perfect` when `correct_count == total`, else `nearPerfect` when
    `correct_count >= total - 1` (Python integers, hence the cast to `ℤ`),
    else `good` when `correct_count >= total / 2` (Python true division,
    hence the comparison in `ℚ`), else `encourage`. -/
def tierOf (c t : ℕ) : Tier :=
  if c = t then .perfect
  else if (t : ℤ) - 1 ≤ (c : ℤ) then .nearPerfect
  else if (t : ℚ) / 2 ≤ (c : ℚ) then .good
  else .encourage

/-- The summary shown by `st.success` (app.py:201-202) together with the
    tier banner: correct count, total, xp, accuracy and tier. -/
structure Result where
  correct : ℕ
  total : ℕ
  xp : ℕ
  accuracy : ℚ
  tier : Tier
deriving DecidableEq

/-- Outcome of one click of the "Submit Test" button.
    `incomplete` is the `st.warning` branch (app.py:181-182), with no
    database write; `raised` models a Python exception inside the scoring
    loop (uncommitted, nothing durable); `success` carries the displayed
    result and the batch of `student_scores` rows inserted and committed. -/
inductive SubmitOutcome where
  | incomplete
  | raised
  | success (r : Result) (written : List Attempt)
deriving DecidableEq

/-- The "Submit Test" branch of `take_test_ui` (app.py:179-211).

    `answers` is the session's answers dict in insertion order: one entry
    per question of the session (`st.session_state["test_questions"]`),
    each value `none` (no radio choice yet) or the selected letter string.
    The source first collects `unanswered` (value `None` or `""`) and
    warns without writing when it is non-empty; otherwise it scores every
    question against a freshly fetched canonical answer, inserts one
    `student_scores` row per question, commits, and reports
    `correct/total`, `round(100*correct/total, 2)` percent, `xp =
    correct*10` and the tier banner. -/
def submitTest (sid : PyStr) (qs : List Question)
    (answers : List (ℕ × Option PyStr)) : SubmitOutcome :=
  if answers.any (fun p => p.2 = none || p.2 = some []) then
    .incomplete
  else
    match scoreAnswers qs (answers.map (fun p => (p.1, p.2.getD []))) with
    | none => .raised
    | some flags =>
      let correct := (flags.map (·.2)).sum
      let total := answers.length
      .success
        ⟨correct, total, correct * 10,
         pyRound2 ((100 * correct : ℚ) / (total : ℚ)),
         tierOf correct total⟩
        (flags.map (fun p => ⟨sid, p.1, p.2⟩))

/-- Effect of one submit outcome on the `student_scores` table: only a
    committed `success` appends its batch. -/
def applySubmit (store : List Attempt) : SubmitOutcome → List Attempt
  | .success _ w => store ++ w
  | _ => store

/-- The batch of rows a submit outcome persists. -/
def writtenOf : SubmitOutcome → List Attempt
  | .success _ w => w
  | _ => []

/-- The displayed result of a submit outcome, when it succeeded. -/
def resultOf : SubmitOutcome → Option Result
  | .success r _ => some r
  | _ => none

/-- The question-loading branch of `take_test_ui` (app.py:130-144):
    the rows satisfying the optional subject filter, in table order.
    `ORDER BY RANDOM() LIMIT n` is then modelled as `List.take n` of an
    arbitrary permutation of this pool. -/
def questionPool (qs : List Question) (subject : Option PyStr) : List Question :=
  match subject with
  | none => qs
  | some s => qs.filter (fun q => q.subject = s)

/-- A sampled session question list: the first `n` rows of one random
    ordering of the pool. -/
def sampleQuestions (perm : List Question) (n : ℕ) : List Question :=
  perm.take n

/-- One row of the leaderboard dataframe (app.py:216-229) after the
    `Rank` column is added. -/
structure LRow where
  student : PyStr
  attempted : ℕ
  correct : ℕ
  xp : ℕ
  accuracy : ℚ
  rank : ℕ
deriving DecidableEq

/-- One group of the leaderboard query (app.py:217-223):
    `COUNT(s.id)`, `SUM(s.is_correct)`, `SUM(s.is_correct)*10` and
    `ROUND(100.0*SUM(s.is_correct)/COUNT(s.id), 2)` for one student.
    Rank is filled in later. -/
def groupStats (store : List Attempt) (s : PyStr) : LRow :=
  let rows := store.filter (fun a => a.student = s)
  let attempted := rows.length
  let correct := (rows.map (·.is_correct)).sum
  ⟨s, attempted, correct, correct * 10,
   pyRound2 ((100 * correct : ℚ) / (attempted : ℚ)), 0⟩

/-- `ORDER BY xp DESC, accuracy DESC` (app.py:224): row `a` may precede
    row `b` when `a` strictly beats `b` on xp, or ties on xp and is at
    least as accurate. -/
def lbRel (a b : LRow) : Prop :=
  b.xp < a.xp ∨ (a.xp = b.xp ∧ b.accuracy ≤ a.accuracy)

instance : DecidableRel lbRel := fun a b => by
  unfold lbRel; infer_instance

instance : IsTotal LRow lbRel where
  total a b := by
    unfold lbRel
    rcases lt_trichotomy a.xp b.xp with h | h | h
    · exact Or.inr (Or.inl h)
    · rcases le_total b.accuracy a.accuracy with h' | h'
      · exact Or.inl (Or.inr ⟨h, h'⟩)
      · exact Or.inr (Or.inr ⟨h.symm, h'⟩)
    · exact Or.inl (Or.inl h)

instance : IsTrans LRow lbRel where
  trans a b c hab hbc := by
    unfold lbRel at *
    rcases hab with h1 | ⟨h1, h1'⟩
    · rcases hbc with h2 | ⟨h2, _⟩
      · exact Or.inl (h2.trans h1)
      · exact Or.inl (h2 ▸ h1)
    · rcases hbc with h2 | ⟨h2, h2'⟩
      · exact Or.inl (h1 ▸ h2)
      · exact Or.inr ⟨h1.trans h2, h2'.trans h1'⟩

/-- `df["Rank"] = range(1, len(df) + 1)` (app.py:229): attach ranks
    `k, k+1, ...` down an already sorted list. -/
def addRanks : ℕ → List LRow → List LRow
  | _, [] => []
  | k, r :: rs => { r with rank := k } :: addRanks (k + 1) rs

/-- `leaderboard_ui` (app.py:214-230) as a pure function of the
    `student_scores` table: group by student, aggregate, sort by
    `(xp DESC, accuracy DESC)` and attach 1-based ranks.  SQL leaves the
    order of ties unspecified; `insertionSort` realises one valid order. -/
def leaderboard_ui (store : List Attempt) : List LRow :=
  let groups := ((store.map (·.student)).dedup).map (groupStats store)
  addRanks 1 (groups.insertionSort lbRel)

/-- `student_dashboard_ui` (app.py:105-123) as a pure function: `none`
    models the early `st.info("No attempts yet."); return` when the
    student's attempted count is 0 (the aggregate query always yields one
    row, so `df_overall.empty` is never the live disjunct); otherwise the
    `(attempted, correct, accuracy)` metrics, with `correct` read through
    `int(... or 0)` (`SUM` over an empty set would be NULL, but here
    attempted > 0 so the sum is the actual flag total). -/
def student_dashboard_ui (store : List Attempt) (sid : PyStr) :
    Option (ℕ × ℕ × ℚ) :=
  let rows := store.filter (fun a => a.student = sid)
  let attempted := rows.length
  if attempted = 0 then none
  else
    let correct := (rows.map (·.is_correct)).sum
    some (attempted, correct, pyRound2 ((100 * correct : ℚ) / (attempted : ℚ)))

/-! ### Structural lemmas about the scoring loop -/

lemma scoreAnswers_fst (qs : List Question) (ans : List (ℕ × PyStr)) :
    ∀ flags, scoreAnswers qs ans = some flags →
      flags.map Prod.fst = ans.map Prod.fst := by
  induction ans with
  | nil =>
    intro flags h
    simp only [scoreAnswers, Option.some.injEq] at h
    subst h; rfl
  | cons hd tl ih =>
    intro flags h
    obtain ⟨q, a⟩ := hd
    simp only [scoreAnswers] at h
    rcases h1 : scoreOne qs q a with _ | f <;>
      rcases h2 : scoreAnswers qs tl with _ | fs <;>
        rw [h1, h2] at h <;> simp only [Option.some.injEq, reduceCtorEq] at h
    subst h
    simp [ih fs h2]

lemma scoreAnswers_flag01 (qs : List Question) (ans : List (ℕ × PyStr)) :
    ∀ flags, scoreAnswers qs ans = some flags →
      ∀ p ∈ flags, p.2 = 0 ∨ p.2 = 1 := by
  induction ans with
  | nil =>
    intro flags h
    simp only [scoreAnswers, Option.some.injEq] at h
    subst h; intro p hp; cases hp
  | cons hd tl ih =>
    intro flags h
    obtain ⟨q, a⟩ := hd
    simp only [scoreAnswers] at h
    rcases h1 : scoreOne qs q a with _ | f <;>
      rcases h2 : scoreAnswers qs tl with _ | fs <;>
        rw [h1, h2] at h <;> simp only [Option.some.injEq, reduceCtorEq] at h
    subst h
    intro p hp
    rcases List.mem_cons.mp hp with hp | hp
    · subst hp
      unfold scoreOne at h1
      rcases hca : correctAnsOf (getAnswerRow qs q) with _ | ca <;> rw [hca] at h1
      · exact absurd h1 (by simp)
      · have h1' : (if a = ca then (1 : ℕ) else 0) = f := by
          simpa using h1
        subst h1'
        by_cases hc : a = ca <;> simp [hc]
    · exact ih fs h2 p hp

lemma scoreAnswers_mem_of_mem (qs : List Question) (ans : List (ℕ × PyStr)) :
    ∀ flags, scoreAnswers qs ans = some flags →
      ∀ q a, (q, a) ∈ ans → ∃ f, (q, f) ∈ flags ∧ scoreOne qs q a = some f := by
  induction ans with
  | nil =>
    intro flags _ q a hm
    cases hm
  | cons hd tl ih =>
    intro flags h q a hm
    obtain ⟨q', a'⟩ := hd
    simp only [scoreAnswers] at h
    rcases h1 : scoreOne qs q' a' with _ | f <;>
      rcases h2 : scoreAnswers qs tl with _ | fs <;>
        rw [h1, h2] at h <;> simp only [Option.some.injEq, reduceCtorEq] at h
    subst h
    rcases List.mem_cons.mp hm with hm | hm
    · injection hm with hq ha
      subst hq
      subst ha
      exact ⟨f, List.mem_cons_self _ _, h1⟩
    · obtain ⟨f', hf', hs'⟩ := ih fs h2 q a hm
      exact ⟨f', List.mem_cons_of_mem _ hf', hs'⟩

/-- Inversion of a successful `submitTest`: the completeness check passed,
    the scoring loop produced the flags, and the written batch and the
    displayed result are built from them exactly as in app.py:186-211. -/
lemma submitTest_success_spec {sid : PyStr} {qs : List Question}
    {answers : List (ℕ × Option PyStr)} {r : Result} {w : List Attempt}
    (h : submitTest sid qs answers = .success r w) :
    (∀ p ∈ answers, p.2 ≠ none ∧ p.2 ≠ some []) ∧
    ∃ flags,
      scoreAnswers qs (answers.map (fun p => (p.1, p.2.getD []))) = some flags ∧
      w = flags.map (fun p => Attempt.mk sid p.1 p.2) ∧
      r = ⟨(flags.map (·.2)).sum, answers.length,
           (flags.map (·.2)).sum * 10,
           pyRound2 ((100 * ((flags.map (·.2)).sum : ℕ) : ℚ) / (answers.length : ℚ)),
           tierOf ((flags.map (·.2)).sum) answers.length⟩ := by
  unfold submitTest at h
  split at h
  · exact absurd h (by simp)
  · rename_i hnotany
    split at h
    · exact absurd h (by simp)
    · rename_i flags hflags
      simp only [SubmitOutcome.success.injEq] at h
      obtain ⟨hr, hw⟩ := h
      refine ⟨?_, flags, hflags, hw.symm, hr.symm⟩
      intro p hp
      constructor <;> intro hval <;>
        exact hnotany (List.any_eq_true.mpr ⟨p, hp, by simp [hval]⟩)

/-! ### Structural lemmas about rank assignment -/

lemma addRanks_length (k : ℕ) (l : List LRow) :
    (addRanks k l).length = l.length := by
  induction l generalizing k with
  | nil => rfl
  | cons r rs ih => simp [addRanks, ih]

lemma addRanks_map_rank (k : ℕ) (l : List LRow) :
    (addRanks k l).map (·.rank) = List.range' k l.length := by
  induction l generalizing k with
  | nil => rfl
  | cons r rs ih => simp [addRanks, List.range', ih]

lemma addRanks_map_student (k : ℕ) (l : List LRow) :
    (addRanks k l).map (·.student) = l.map (·.student) := by
  induction l generalizing k with
  | nil => rfl
  | cons r rs ih => simp [addRanks, ih]

lemma mem_addRanks {x : LRow} {k : ℕ} {l : List LRow} (h : x ∈ addRanks k l) :
    ∃ y ∈ l, x.student = y.student ∧ x.attempted = y.attempted ∧
      x.correct = y.correct ∧ x.xp = y.xp ∧ x.accuracy = y.accuracy := by
  induction l generalizing k with
  | nil => cases h
  | cons r rs ih =>
    rcases List.mem_cons.mp h with h | h
    · subst h
      exact ⟨r, List.mem_cons_self _ _, rfl, rfl, rfl, rfl, rfl⟩
    · obtain ⟨y, hy, hs⟩ := ih h
      exact ⟨y, List.mem_cons_of_mem _ hy, hs⟩

lemma lbRel_congr {a a' b b' : LRow} (hxa : a.xp = a'.xp)
    (haa : a.accuracy = a'.accuracy) (hxb : b.xp = b'.xp)
    (hab : b.accuracy = b'.accuracy) (h : lbRel a b) : lbRel a' b' := by
  unfold lbRel at *
  rw [← hxa, ← haa, ← hxb, ← hab]
  exact h

lemma addRanks_pairwise {l : List LRow} (k : ℕ) (h : l.Pairwise lbRel) :
    (addRanks k l).Pairwise lbRel := by
  induction l generalizing k with
  | nil => exact List.Pairwise.nil
  | cons r rs ih =>
    rcases List.pairwise_cons.mp h with ⟨hr, hrs⟩
    refine List.pairwise_cons.mpr ⟨?_, ih (k + 1) hrs⟩
    intro b hb
    obtain ⟨y, hy, _, _, _, hx, hacc⟩ := mem_addRanks hb
    exact lbRel_congr rfl rfl hx.symm hacc.symm (hr y hy)

/-! ### The tier rule as the specification words it (for comparison only).

The source computes the tier without the `total > 1` guard; this second
definition follows the specification text verbatim so the two can be
compared. -/

/-- Tier as stated by the spec: `perfect` if `correct == total`; else
    `near_perfect` if `total > 1` and `correct ≥ total − 1`; else `good`
    if `correct ≥ total/2`; else `encourage`. -/
def specTier (c t : ℕ) : Tier :=
  if c = t then .perfect
  else if 1 < t ∧ (t : ℤ) - 1 ≤ (c : ℤ) then .nearPerfect
  else if (t : ℚ) / 2 ≤ (c : ℚ) then .good
  else .encourage

/-! ### Concrete instances used by witnesses and counterexamples -/

/-- A student id. -/
def sid0 : PyStr := ['s']

/-- A one-question table whose question is answered correctly in `ans1`. -/
def qs1 : List Question := [⟨1, some ['A'], []⟩]

/-- The completed answers dict for `qs1`. -/
def ans1 : List (ℕ × Option PyStr) := [(1, some ['A'])]

/-- The result displayed for `submitTest sid0 qs1 ans1`. -/
def res1 : Result :=
  ⟨1, 1, 10, pyRound2 ((100 * ((1 : ℕ) : ℚ)) / ((1 : ℕ) : ℚ)), tierOf 1 1⟩

/-- The batch written by `submitTest sid0 qs1 ans1`. -/
def bat1 : List Attempt := [⟨sid0, 1, 1⟩]

lemma submit_qs1 : submitTest sid0 qs1 ans1 = .success res1 bat1 := rfl

/-- A one-question table whose question is answered wrongly in `ans2`. -/
def qs2 : List Question := [⟨1, some ['B'], []⟩]

/-- The completed (wrong) answers dict for `qs2`. -/
def ans2 : List (ℕ × Option PyStr) := [(1, some ['A'])]

/-- The result displayed for a one-question submission with zero correct. -/
def res0 : Result :=
  ⟨0, 1, 0, pyRound2 ((100 * ((0 : ℕ) : ℚ)) / ((1 : ℕ) : ℚ)), tierOf 0 1⟩

/-- The batch written by `submitTest sid0 qs2 ans2`. -/
def bat2 : List Attempt := [⟨sid0, 1, 0⟩]

lemma submit_qs2 : submitTest sid0 qs2 ans2 = .success res0 bat2 := rfl

/-- A table whose single question has a NULL canonical answer. -/
def qs3 : List Question := [⟨7, none, []⟩]

/-- The completed answers dict for `qs3`. -/
def ans3 : List (ℕ × Option PyStr) := [(7, some ['A'])]

/-- The batch written by `submitTest sid0 qs3 ans3`. -/
def bat3 : List Attempt := [⟨sid0, 7, 0⟩]

lemma submit_qs3 : submitTest sid0 qs3 ans3 = .success res0 bat3 := rfl

/-- A table whose canonical answer is stored in lowercase. -/
def qs7 : List Question := [⟨1, some ['b'], []⟩]

/-- A two-question table sharing one subject. -/
def qs8 : List Question := [⟨1, some ['A'], ['P']⟩, ⟨2, some ['B'], ['P']⟩]

/-- A one-row attempt store. -/
def store0 : List Attempt := [⟨['a'], 1, 1⟩]

/-- The single leaderboard row derived from `store0`. -/
def row0 : LRow :=
  ⟨['a'], 1, 1, 10, pyRound2 ((100 * ((1 : ℕ) : ℚ)) / ((1 : ℕ) : ℚ)), 1⟩

lemma leaderboard_store0 : leaderboard_ui store0 = [row0] := rfl

section SanityChecks

example : pyStrip [' ', 'b', ' '] = ['b'] := by decide

example : correctAnsOf (some (some ['b', '.', ' '])) = some ['B'] := by decide

example : correctAnsOf none = some [] := by decide

example : tierOf 0 1 = .nearPerfect := by decide

example : tierOf 3 3 = .perfect := by decide

example :
    writtenOf (submitTest ['s'] [⟨1, some ['A'], []⟩] [(1, some ['A'])]) =
      [⟨['s'], 1, 1⟩] := by decide

example :
    submitTest ['s'] [⟨1, some ['A'], []⟩] [(1, none)] = .incomplete := by decide

end SanityChecks

/-! ### Claim theorems -/

/-- C4: if at least one question id of the session has a null or empty
    answer, the submission fails with the incomplete warning
    (app.py:180-182): no Attempt row is written, no scoring is performed,
    and the session data is untouched. -/
theorem C4_incomplete_submission (sid : PyStr) (qs : List Question)
    (answers : List (ℕ × Option PyStr)) (store : List Attempt)
    (h : ∃ p ∈ answers, p.2 = none ∨ p.2 = some []) :
    submitTest sid qs answers = .incomplete ∧
    applySubmit store (submitTest sid qs answers) = store := by
  have hany : answers.any (fun p => p.2 = none || p.2 = some []) = true := by
    rcases h with ⟨p, hp, hcase⟩
    refine List.any_eq_true.mpr ⟨p, hp, ?_⟩
    rcases hcase with h1 | h1 <;> simp [h1]
  constructor
  · simp [submitTest, hany]
  · simp [submitTest, hany, applySubmit]

/-- Witness for C4 at a concrete unanswered session. -/
theorem C4_incomplete_submission_witness :
    submitTest sid0 [] [(1, none)] = .incomplete ∧
    applySubmit [] (submitTest sid0 [] [(1, none)]) = [] :=
  C4_incomplete_submission sid0 [] [(1, none)] []
    ⟨(1, none), List.mem_cons_self _ _, Or.inl rfl⟩

/-- C6: every successful submission reports
    `accuracy = round(100*correct/total, 2)` and `xp = correct*10`
    (app.py:201-202), where `total` is the number of answered questions
    of the session. -/
theorem C6_accuracy_xp (sid : PyStr) (qs : List Question)
    (answers : List (ℕ × Option PyStr)) (r : Result) (w : List Attempt)
    (h : submitTest sid qs answers = .success r w) :
    r.accuracy = pyRound2 ((100 * r.correct : ℚ) / (r.total : ℚ)) ∧
    r.xp = r.correct * 10 ∧
    r.total = answers.length := by
  obtain ⟨-, flags, -, -, hr⟩ := submitTest_success_spec h
  subst hr
  exact ⟨rfl, rfl, rfl⟩

/-- Witness for C6 at a concrete successful submission. -/
theorem C6_accuracy_xp_witness :
    res1.accuracy = pyRound2 ((100 * res1.correct : ℚ) / (res1.total : ℚ)) ∧
    res1.xp = res1.correct * 10 ∧
    res1.total = ans1.length :=
  C6_accuracy_xp sid0 qs1 ans1 res1 bat1 submit_qs1

lemma toUpper_fixed (l : Char) (hl : l ∈ (['A', 'B', 'C', 'D'] : List Char)) :
    Char.toUpper l = l := by
  fin_cases hl <;> decide

/-- C7: for every question scored at submission, the correctness flag is
    the case-insensitive comparison of the learner's selected letter
    against the first character of the canonical answer fetched at
    submission time (app.py:186-193).  The selected letter is one of
    A-D by construction of the radio options (app.py:166-174), and the
    stored canonical answer is taken without surrounding whitespace so
    that its first character is the character the source compares. -/
theorem C7_case_insensitive_scoring (qs : List Question) (q : ℕ)
    (l c : Char) (cs : PyStr)
    (hl : l ∈ (['A', 'B', 'C', 'D'] : List Char))
    (hrow : getAnswerRow qs q = some (some (c :: cs)))
    (hstrip : pyStrip (c :: cs) = c :: cs) :
    scoreOne qs q [l] = some (if Char.toUpper l = Char.toUpper c then 1 else 0) := by
  have hca : correctAnsOf (getAnswerRow qs q) = some [Char.toUpper c] := by
    rw [hrow]
    simp [correctAnsOf, hstrip, pyUpper]
  unfold scoreOne
  rw [hca]
  show some (if ([l] : PyStr) = [Char.toUpper c] then (1 : ℕ) else 0) = _
  have hcond : (([l] : PyStr) = [Char.toUpper c]) ↔ (Char.toUpper l = Char.toUpper c) := by
    rw [toUpper_fixed l hl]
    simp
  exact congrArg some (if_congr hcond rfl rfl)

/-- Witness for C7: lowercase stored answer `b`, selected letter `B`. -/
theorem C7_case_insensitive_scoring_witness :
    scoreOne qs7 1 ['B'] =
      some (if Char.toUpper 'B' = Char.toUpper 'b' then 1 else 0) :=
  C7_case_insensitive_scoring qs7 1 'B' 'b' [] (by decide) rfl (by decide)

/-- C8: for every subject filter and requested count, the sampled session
    question list (`ORDER BY RANDOM() LIMIT n`, app.py:130-144, modelled
    as a prefix of an arbitrary permutation of the filtered table) has
    size `min(count, available)` and no duplicate question ids; the table
    ids are distinct because `id` is the primary key. -/
theorem C8_sample_size_nodup (qs : List Question) (subject : Option PyStr)
    (n : ℕ) (perm : List Question)
    (hids : (qs.map (·.id)).Nodup)
    (hperm : perm.Perm (questionPool qs subject)) :
    (sampleQuestions perm n).length = min n (questionPool qs subject).length ∧
    ((sampleQuestions perm n).map (·.id)).Nodup := by
  constructor
  · rw [sampleQuestions, List.length_take, hperm.length_eq]
  · have hpool : ((questionPool qs subject).map (·.id)).Nodup := by
      cases subject with
      | none => exact hids
      | some s =>
        exact List.Nodup.sublist ((List.filter_sublist qs).map (·.id)) hids
    have hpermNodup : (perm.map (·.id)).Nodup :=
      ((hperm.map (·.id)).nodup_iff).mpr hpool
    exact List.Nodup.sublist ((List.take_sublist n perm).map (·.id)) hpermNodup

/-- Witness for C8 with a two-row table and count 1. -/
theorem C8_sample_size_nodup_witness :
    (sampleQuestions qs8 1).length = min 1 (questionPool qs8 none).length ∧
    ((sampleQuestions qs8 1).map (·.id)).Nodup :=
  C8_sample_size_nodup qs8 none 1 qs8 (by decide) (List.Perm.refl _)

/-- C9: every successful submission writes exactly one row per question
    id of the session, in session order, and every written correctness
    flag is 0 or 1 (app.py:186-197); with the session's question ids
    distinct (the `questions` primary key), the row count equals the
    session's question count and no id repeats. -/
theorem C9_batch_shape (sid : PyStr) (qs : List Question)
    (answers : List (ℕ × Option PyStr)) (r : Result) (w : List Attempt)
    (h : submitTest sid qs answers = .success r w)
    (hnodup : (answers.map Prod.fst).Nodup) :
    w.length = answers.length ∧
    (∀ a ∈ w, a.is_correct = 0 ∨ a.is_correct = 1) ∧
    w.map (·.qid) = answers.map Prod.fst ∧
    (w.map (·.qid)).Nodup := by
  obtain ⟨-, flags, hflags, hw, -⟩ := submitTest_success_spec h
  subst hw
  have hfst := scoreAnswers_fst qs _ flags hflags
  have hqid : (flags.map (fun p => Attempt.mk sid p.1 p.2)).map (·.qid) =
      answers.map Prod.fst := by
    rw [List.map_map]
    have h1 : ((fun a : Attempt => a.qid) ∘ fun p : ℕ × ℕ => Attempt.mk sid p.1 p.2) =
        (Prod.fst : ℕ × ℕ → ℕ) := rfl
    rw [h1, hfst, List.map_map]
    rfl
  have hlen : flags.length = answers.length := by
    have h2 := congrArg List.length hfst
    simpa using h2
  refine ⟨by simpa using hlen, ?_, hqid, hqid ▸ hnodup⟩
  intro a ha
  obtain ⟨p, hp, hpa⟩ := List.mem_map.mp ha
  have h3 := scoreAnswers_flag01 qs _ flags hflags p hp
  rw [← hpa]
  exact h3

/-- Witness for C9 at a concrete successful submission. -/
theorem C9_batch_shape_witness :
    bat1.length = ans1.length ∧
    (∀ a ∈ bat1, a.is_correct = 0 ∨ a.is_correct = 1) ∧
    bat1.map (·.qid) = ans1.map Prod.fst ∧
    (bat1.map (·.qid)).Nodup :=
  C9_batch_shape sid0 qs1 ans1 res1 bat1 submit_qs1 (by decide)

/-- C5: for every attempt history, the leaderboard groups attempts by
    student id, computes per group `attempted` = row count, `correct` =
    sum of correctness flags, `xp = correct*10` and
    `accuracy = round(100*correct/attempted, 2)`, orders rows by xp
    descending then accuracy descending, and assigns rank as the 1-based
    position in that order, strictly increasing from 1 (app.py:214-230). -/
theorem C5_leaderboard_aggregation (store : List Attempt) :
    (leaderboard_ui store).map (·.rank) =
      List.range' 1 (leaderboard_ui store).length ∧
    (leaderboard_ui store).Pairwise lbRel ∧
    ((leaderboard_ui store).map (·.student)).Perm
      ((store.map (·.student)).dedup) ∧
    ∀ row ∈ leaderboard_ui store,
      row.attempted = (store.filter (fun a => a.student = row.student)).length ∧
      row.correct =
        ((store.filter (fun a => a.student = row.student)).map (·.is_correct)).sum ∧
      row.xp = row.correct * 10 ∧
      row.accuracy = pyRound2 ((100 * row.correct : ℚ) / (row.attempted : ℚ)) := by
  refine ⟨?_, ?_, ?_, ?_⟩
  · unfold leaderboard_ui
    rw [addRanks_map_rank, addRanks_length,
      (List.perm_insertionSort lbRel _).length_eq, List.length_map]
  · unfold leaderboard_ui
    exact addRanks_pairwise 1 (List.sorted_insertionSort lbRel _)
  · unfold leaderboard_ui
    rw [addRanks_map_student]
    refine ((List.perm_insertionSort lbRel _).map (·.student)).trans ?_
    rw [List.map_map]
    have h1 : ((fun r : LRow => r.student) ∘ groupStats store) = id :=
      funext fun s => rfl
    rw [h1, List.map_id]
  · intro row hrow
    unfold leaderboard_ui at hrow
    obtain ⟨y, hy, hstu, hat, hc, hx, hacc⟩ := mem_addRanks hrow
    have hy2 := (List.perm_insertionSort lbRel _).mem_iff.mp hy
    obtain ⟨s, _, hys⟩ := List.mem_map.mp hy2
    subst hys
    have hstu' : row.student = s := hstu
    rw [hstu']
    refine ⟨hat, hc, ?_, ?_⟩
    · rw [hx, hc]; rfl
    · rw [hacc, hc, hat]; rfl

/-- Witness for C5: the per-row aggregation formulas at a concrete
    one-row store. -/
theorem C5_leaderboard_aggregation_witness :
    row0.attempted = (store0.filter (fun a => a.student = row0.student)).length ∧
    row0.correct =
      ((store0.filter (fun a => a.student = row0.student)).map (·.is_correct)).sum ∧
    row0.xp = row0.correct * 10 ∧
    row0.accuracy = pyRound2 ((100 * row0.correct : ℚ) / (row0.attempted : ℚ)) :=
  (C5_leaderboard_aggregation store0).2.2.2 row0
    (by rw [leaderboard_store0]; exact List.mem_cons_self _ _)

/-- C10: accuracy computations never divide by zero: the dashboard
    returns early (with no metrics) exactly when the learner's attempted
    count is 0 (app.py:112-118), every reported attempted count is
    positive, and every leaderboard group has `attempted ≥ 1` because
    groups only arise from existing attempt rows (app.py:216-225). -/
theorem C10_no_division_by_zero (store : List Attempt) (sid : PyStr) :
    (student_dashboard_ui store sid = none ↔
      (store.filter (fun a => a.student = sid)).length = 0) ∧
    (∀ a c q, student_dashboard_ui store sid = some (a, c, q) → 0 < a) ∧
    (∀ row ∈ leaderboard_ui store, 1 ≤ row.attempted) := by
  refine ⟨?_, ?_, ?_⟩
  · constructor
    · intro h
      by_contra hne
      simp [student_dashboard_ui, hne] at h
    · intro h
      simp [student_dashboard_ui, h]
  · intro a c q h
    simp only [student_dashboard_ui] at h
    split at h
    · exact absurd h (by simp)
    · rename_i hlen
      simp only [Option.some.injEq, Prod.mk.injEq] at h
      obtain ⟨ha, -⟩ := h
      omega
  · intro row hrow
    unfold leaderboard_ui at hrow
    obtain ⟨y, hy, _, hat, _, _, _⟩ := mem_addRanks hrow
    have hy2 := (List.perm_insertionSort lbRel _).mem_iff.mp hy
    obtain ⟨s, hs, hys⟩ := List.mem_map.mp hy2
    subst hys
    obtain ⟨a, ha, has⟩ := List.mem_map.mp (List.mem_dedup.mp hs)
    have hmem : a ∈ store.filter (fun x => x.student = s) :=
      List.mem_filter.mpr ⟨ha, by simp [has]⟩
    have hpos : 0 < (store.filter (fun x => x.student = s)).length :=
      List.length_pos_of_mem hmem
    rw [hat]
    exact hpos

/-- Witness for C10 at a concrete one-row store. -/
theorem C10_no_division_by_zero_witness :
    (0 : ℕ) < 1 ∧ (1 : ℕ) ≤ row0.attempted :=
  ⟨(C10_no_division_by_zero store0 (['a'] : PyStr)).2.1 1 1
      (pyRound2 ((100 * ((1 : ℕ) : ℚ)) / ((1 : ℕ) : ℚ))) rfl,
   (C10_no_division_by_zero store0 (['a'] : PyStr)).2.2 row0
      (by rw [leaderboard_store0]; exact List.mem_cons_self _ _)⟩

/-- C1 counterexample: the source has no Submitted state and no memoized
    result — each click of "Submit Test" re-runs the scoring loop and
    inserts a fresh batch (app.py:179-199).  After a second submit of the
    same completed one-question session the store holds 2 Attempt rows,
    not the single batch the claim requires. -/
theorem C1_counterexample :
    (applySubmit (applySubmit [] (submitTest sid0 qs1 ans1))
        (submitTest sid0 qs1 ans1)).length = 2 ∧
    (applySubmit [] (submitTest sid0 qs1 ans1)).length = 1 :=
  ⟨rfl, rfl⟩

/-- C1 (amended): a second submit call on the unchanged session is
    deterministic — it returns a result identical to the first — but it
    is not exactly-once: it appends a second identical batch of Attempt
    rows (one per session question), so after two calls the store holds
    two batches rather than one. -/
theorem C1_resubmit_duplicates (sid : PyStr) (qs : List Question)
    (answers : List (ℕ × Option PyStr)) (store : List Attempt)
    (r : Result) (w : List Attempt)
    (h : submitTest sid qs answers = .success r w) :
    submitTest sid qs answers = .success r w ∧
    applySubmit (applySubmit store (submitTest sid qs answers))
        (submitTest sid qs answers) = store ++ w ++ w ∧
    w.length = answers.length := by
  refine ⟨h, by rw [h]; rfl, ?_⟩
  obtain ⟨-, flags, hflags, hw, -⟩ := submitTest_success_spec h
  subst hw
  have hlen : flags.length = answers.length := by
    have h2 := congrArg List.length (scoreAnswers_fst qs _ flags hflags)
    simpa using h2
  simpa using hlen

/-- Witness for the amended C1 at a concrete completed session. -/
theorem C1_resubmit_duplicates_witness :
    submitTest sid0 qs1 ans1 = .success res1 bat1 ∧
    applySubmit (applySubmit [] (submitTest sid0 qs1 ans1))
        (submitTest sid0 qs1 ans1) = [] ++ bat1 ++ bat1 ∧
    bat1.length = ans1.length :=
  C1_resubmit_duplicates sid0 qs1 ans1 [] res1 bat1 submit_qs1

/-- C2 counterexample: a one-question session answered wrongly.  The
    source prints the `nearPerfect` banner (`correct_count >= total - 1`
    with no `total > 1` guard, app.py:206-207), while the tier formula
    the claim states yields `encourage` at `correct = 0, total = 1`. -/
theorem C2_counterexample :
    resultOf (submitTest sid0 qs2 ans2) = some res0 ∧
    res0.correct = 0 ∧ res0.total = 1 ∧
    res0.tier = Tier.nearPerfect ∧
    specTier 0 1 = Tier.encourage := by
  refine ⟨by rw [submit_qs2]; rfl, rfl, rfl, by decide, ?_⟩
  unfold specTier
  rw [if_neg (by norm_num), if_neg (by norm_num), if_neg (by norm_num)]

/-- C2 (amended): the tier of a successful submission is `perfect` when
    `correct = total`, else `nearPerfect` when `correct ≥ total − 1`
    — with no `total > 1` guard, so a 0-of-1 submission is also
    `nearPerfect` — else `good` when `correct ≥ total/2`, else
    `encourage`; `total` is the session's question count. -/
theorem C2_tier_of_result (sid : PyStr) (qs : List Question)
    (answers : List (ℕ × Option PyStr)) (r : Result) (w : List Attempt)
    (h : submitTest sid qs answers = .success r w) :
    r.tier = (if r.correct = r.total then Tier.perfect
      else if (r.total : ℤ) - 1 ≤ (r.correct : ℤ) then Tier.nearPerfect
      else if (r.total : ℚ) / 2 ≤ (r.correct : ℚ) then Tier.good
      else Tier.encourage) ∧
    r.total = answers.length := by
  obtain ⟨-, flags, -, -, hr⟩ := submitTest_success_spec h
  subst hr
  exact ⟨rfl, rfl⟩

/-- Witness for the amended C2 at a concrete 0-of-1 submission. -/
theorem C2_tier_of_result_witness :
    res0.tier = (if res0.correct = res0.total then Tier.perfect
      else if (res0.total : ℤ) - 1 ≤ (res0.correct : ℤ) then Tier.nearPerfect
      else if (res0.total : ℚ) / 2 ≤ (res0.correct : ℚ) then Tier.good
      else Tier.encourage) ∧
    res0.total = ans2.length :=
  C2_tier_of_result sid0 qs2 ans2 res0 bat2 submit_qs2

/-- C3 counterexample: a session whose single question has a NULL
    canonical answer.  The claim requires the submission to fail with
    nothing persisted; the source instead treats the missing answer as
    `""` (app.py:190), scores the question incorrect, succeeds, and
    commits the Attempt row. -/
theorem C3_counterexample :
    getAnswerRow qs3 7 = some none ∧
    resultOf (submitTest sid0 qs3 ans3) = some res0 ∧
    applySubmit [] (submitTest sid0 qs3 ans3) = bat3 :=
  ⟨rfl, by rw [submit_qs3]; rfl, by rw [submit_qs3]; rfl⟩

/-- C3 (amended): a missing canonical answer (no `questions` row for the
    id, or a NULL or empty `answer` column) does not abort the
    submission: the question is scored against the empty string, hence
    marked incorrect, and its Attempt row is written with the rest of
    the batch; the submission succeeds. -/
theorem C3_missing_answer_scored_zero (sid : PyStr) (qs : List Question)
    (answers : List (ℕ × Option PyStr)) (r : Result) (w : List Attempt)
    (q : ℕ) (l : PyStr)
    (h : submitTest sid qs answers = .success r w)
    (hmem : (q, some l) ∈ answers)
    (hmissing : getAnswerRow qs q = none ∨ getAnswerRow qs q = some none ∨
      getAnswerRow qs q = some (some [])) :
    Attempt.mk sid q 0 ∈ w := by
  obtain ⟨hcomplete, flags, hflags, hw, -⟩ := submitTest_success_spec h
  have hl : l ≠ [] := by
    have h2 := (hcomplete _ hmem).2
    simpa using h2
  have hmem' : (q, l) ∈ answers.map (fun p => (p.1, p.2.getD [])) :=
    List.mem_map.mpr ⟨(q, some l), hmem, rfl⟩
  obtain ⟨f, hf, hscore⟩ := scoreAnswers_mem_of_mem qs _ flags hflags q l hmem'
  have hca : correctAnsOf (getAnswerRow qs q) = some [] := by
    rcases hmissing with hm | hm | hm <;> rw [hm] <;> simp [correctAnsOf]
  have hval : scoreOne qs q l = some (if l = [] then 1 else 0) := by
    unfold scoreOne
    rw [hca]
    rfl
  rw [hval] at hscore
  have hf0 : f = 0 := by
    simp only [Option.some.injEq] at hscore
    rw [if_neg hl] at hscore
    exact hscore.symm
  subst hf0
  rw [hw]
  exact List.mem_map.mpr ⟨(q, 0), hf, rfl⟩

/-- Witness for the amended C3 at a concrete NULL canonical answer. -/
theorem C3_missing_answer_scored_zero_witness :
    Attempt.mk sid0 7 0 ∈ bat3 :=
  C3_missing_answer_scored_zero sid0 qs3 ans3 res0 bat3 7 ['A']
    submit_qs3 (List.mem_cons_self _ _) (Or.inr (Or.inl rfl))

end SLearn
